import Mathlib

/-!
Shallow embedding of the commit-message inspection engine of
`src/inspection.ts` (opinionated-commit-message).

JavaScript strings (the message, its lines, the verb entries and the
produced error messages) are modelled as `List Char`; a Lean string
literal `"..."` enters the model through its character list `"...".data`.
The verb whitelist (a JavaScript `Set<string>` iterated in insertion
order) is modelled as a `List (List Char)`; fallible code (the `throw`
statements) is modelled with `Except`.  The JavaScript regular
expressions are compiled by hand into deterministic character-list
matchers; the comment at each definition records the regex it implements.
-/

namespace Inspection

/-- A JavaScript string value. -/
abbrev JStr := List Char

/-- The apostrophe character (U+0027). -/
def squote : Char := Char.ofNat 39

/-- `[A-Z]` -/
def isUpperAlpha (c : Char) : Bool := 65 ≤ c.toNat && c.toNat ≤ 90

/-- `[a-z]` -/
def isLowerAlpha (c : Char) : Bool := 97 ≤ c.toNat && c.toNat ≤ 122

/-- `[a-zA-Z]` -/
def isAlpha (c : Char) : Bool := isUpperAlpha c || isLowerAlpha c

/-- `[a-zA-Z_0-9]` -/
def isWordChar (c : Char) : Bool :=
  isAlpha c || (48 ≤ c.toNat && c.toNat ≤ 57) || c.toNat == 95

/-- JavaScript `\s` (also the character set removed by `String.trim`). -/
def isJsSpace (c : Char) : Bool :=
  c.toNat == 9 || c.toNat == 10 || c.toNat == 11 || c.toNat == 12 ||
  c.toNat == 13 || c.toNat == 32 || c.toNat == 160 || c.toNat == 0x1680 ||
  (0x2000 ≤ c.toNat && c.toNat ≤ 0x200a) || c.toNat == 0x2028 ||
  c.toNat == 0x2029 || c.toNat == 0x202f || c.toNat == 0x205f ||
  c.toNat == 0x3000 || c.toNat == 0xfeff

/-- The last character of a string, if any. -/
def lastChar : JStr → Option Char
  | [] => none
  | [c] => some c
  | _ :: c :: rest => lastChar (c :: rest)

/-- The `n`-th character of a string, if any. -/
def nthChar : JStr → Nat → Option Char
  | [], _ => none
  | c :: _, 0 => some c
  | _ :: rest, n + 1 => nthChar rest n

/-- The `n`-th element of a list, if any (used for body lines). -/
def nthItem {α : Type} : List α → Nat → Option α
  | [], _ => none
  | x :: _, 0 => some x
  | _ :: rest, n + 1 => nthItem rest n

/-- Decimal digit character. -/
def digitChar (d : Nat) : Char := Char.ofNat (48 + d)

/-- Decimal digits of a natural number, most significant first (the
rendering of `${n}` in a JavaScript template literal); the first
argument is fuel kept strictly above `n`. -/
def natCharsCore : Nat → Nat → JStr → JStr
  | 0, _, acc => acc
  | fuel + 1, n, acc =>
    if n < 10 then digitChar n :: acc
    else natCharsCore fuel (n / 10) (digitChar (n % 10) :: acc)

def natChars (n : Nat) : JStr := natCharsCore (n + 1) n []

/-- Lower-case a string (ASCII, as `Char.toLower`); models JavaScript
`toLowerCase()` on the inputs handled here. -/
def lowerStr (s : JStr) : JStr := s.map Char.toLower

/-- `JSON.stringify` escaping for one character. -/
def jsonEscapeChar (c : Char) : JStr :=
  if c = '"' then ['\\', '"']
  else if c = '\\' then ['\\', '\\']
  else if c = '\x08' then ['\\', 'b']
  else if c = '\x0c' then ['\\', 'f']
  else if c = '\n' then ['\\', 'n']
  else if c = '\r' then ['\\', 'r']
  else if c = '\t' then ['\\', 't']
  else if c.toNat < 32 then
    ['\\', 'u', '0', '0',
     (if c.toNat / 16 < 10 then Char.ofNat (48 + c.toNat / 16)
      else Char.ofNat (87 + c.toNat / 16)),
     (if c.toNat % 16 < 10 then Char.ofNat (48 + c.toNat % 16)
      else Char.ofNat (87 + c.toNat % 16))]
  else [c]

/-- `JSON.stringify` of a string value. -/
def jsonQuote (l : JStr) : JStr :=
  '"' :: ((l.map jsonEscapeChar).flatten ++ ['"'])

/-! ## splitLines -/

/-- `message.split('\n')` — splitting never yields an empty array. -/
def splitOnNl : JStr → List JStr
  | [] => [[]]
  | c :: rest =>
    if c = '\n' then [] :: splitOnNl rest
    else
      match splitOnNl rest with
      | [] => [[c]]
      | l :: ls => (c :: l) :: ls

/-- `line.replace(/\r$/, '')`. -/
def stripCr (l : JStr) : JStr :=
  if lastChar l = some '\r' then l.dropLast else l

/-- `splitLines` of `src/inspection.ts`. -/
def splitLines (message : JStr) : List JStr :=
  (splitOnNl message).map stripCr

/-! ## The regular expressions -/

/-- `capitalizedWordRe = /^([A-Z][a-z]*)[^a-zA-Z]/` applied with `exec`;
returns the first capture group.  The maximal run of lower-case letters
must be followed by a character that is not a letter (a shorter run is
followed by a letter, so backtracking cannot succeed either). -/
def capitalizedWordMatch (l : JStr) : Option JStr :=
  match l with
  | [] => none
  | c :: rest =>
    if isUpperAlpha c then
      match rest.span (fun d => isLowerAlpha d) with
      | (run, d :: _) => if isAlpha d then none else some (c :: run)
      | (_, []) => none
    else none

/-- Tail of `suffixHashCodeRe` after `#`: `[a-zA-Z_0-9]+\s*\)$`. -/
def hashTailAfterHash (l : JStr) : Bool :=
  match l.span (fun c => isWordChar c) with
  | ([], _) => false
  | (_ :: _, r1) =>
    match r1.span (fun c => isJsSpace c) with
    | (_, r2) => r2 = [')']

/-- `\(\s*#` followed by `hashTailAfterHash`. -/
def parenHash (l : JStr) : Bool :=
  match l with
  | c :: r =>
    if c = '(' then
      (match r.span (fun d => isJsSpace d) with
       | (_, '#' :: r2) => hashTailAfterHash r2
       | _ => false)
    else false
  | [] => false

/-- `suffixHashCodeRe = /\s?\(\s*#[a-zA-Z_0-9]+\s*\)$/` matching the whole
of `l` (every match is anchored at the end of the string). -/
def hashSuffixAt (l : JStr) : Bool :=
  match l with
  | [] => false
  | c :: rest => if isJsSpace c then parenHash rest else parenHash (c :: rest)

/-- `subject.replace(suffixHashCodeRe, '')`: delete the leftmost match
(which necessarily extends to the end of the string). -/
def stripHashSuffix : JStr → JStr
  | [] => []
  | c :: rest =>
    if hashSuffixAt (c :: rest) then [] else c :: stripHashSuffix rest

/-- `^...://...` with a nonempty run before the separator and a nonempty
rest after it. -/
def existsInnerSep : JStr → Bool
  | [] => false
  | _ :: rest =>
    (match rest with
     | ':' :: '/' :: '/' :: _ :: _ => true
     | _ => false) || existsInnerSep rest

/-- `urlLineRe = /^[^ ]+:\/\/[^ ]+$/`. -/
def urlLineTest (l : JStr) : Bool :=
  !(l.contains ' ') && existsInnerSep l

/-- `\s*[^ ]+:\/\/[^ ]+$`: the star may stop at any point of the leading
whitespace run (whitespace other than a space can also be consumed by
`[^ ]+`). -/
def wsThenUrl : JStr → Bool
  | [] => false
  | c :: rest => urlLineTest (c :: rest) || (isJsSpace c && wsThenUrl rest)

/-- `linkDefinitionRe = /^\[[^\]]+]\s*:\s*[^ ]+:\/\/[^ ]+$/`. -/
def linkDefTest (l : JStr) : Bool :=
  match l with
  | '[' :: rest =>
    (match rest.span (fun c => c ≠ ']') with
     | ([], _) => false
     | (_ :: _, ']' :: r2) =>
       (match r2.span (fun c => isJsSpace c) with
        | (_, ':' :: r3) => wsThenUrl r3
        | _ => false)
     | (_ :: _, _) => false)
  | _ => false

/-- The character class of `mergeMessageRe`: `[^\000-\037\177 ~^:?*[]`. -/
def isMergeRefChar (c : Char) : Bool :=
  !(c.toNat ≤ 31 || c.toNat == 127 || c.toNat == 32 || c.toNat == 126 ||
    c.toNat == 94 || c.toNat == 58 || c.toNat == 63 || c.toNat == 42 ||
    c.toNat == 91)

/-- The literal `Merge branch '` opening `mergeMessageRe`. -/
def mergeHead : JStr := "Merge branch ".data ++ [squote]

/-- The literal `' into ` between the two references. -/
def mergeSepList : JStr := squote :: " into ".data

/-- A nonempty run of reference characters reaching the end of the
string (the second `[^...]+` followed by `$`). -/
def mergeRefRun (l : JStr) : Bool :=
  !l.isEmpty && l.all (fun c => isMergeRefChar c)

/-- Scanning after the first reference character: either the separator
`' into ` starts here and a closing reference run follows, or the
current character belongs to the first reference and scanning continues
(backtracking of the first greedy `[^...]+`). -/
def mergeLoop : JStr → Bool
  | [] => false
  | c :: rest =>
    (mergeSepList.isPrefixOf (c :: rest) && mergeRefRun ((c :: rest).drop 7))
    || (isMergeRefChar c && mergeLoop rest)

/-- `mergeMessageRe.test(message)` where
`mergeMessageRe = /^Merge branch '[^...]+' into [^...]+$/`
(anchored to the whole string; `$` matches only at the very end). -/
def mergeMessageTest (message : JStr) : Bool :=
  if mergeHead.isPrefixOf message then
    match message.drop mergeHead.length with
    | [] => false
    | c :: t => isMergeRefChar c && mergeLoop t
  else false

/-! ## The verb whitelist -/

/-- Modelled from the spec: the built-in set of lower-case frequent
English imperative verbs (`src/mostFrequentEnglishVerbs.ts`, which is
not under `src/`).  The spec names "Change" and "Fix" as examples and
its test properties require "change", "do" and "unify" to be accepted
and "replaced" and "table" to be rejected. -/
def mostFrequentEnglishVerbsSET : List JStr :=
  ["change".data, "do".data, "fix".data, "unify".data]

/-! ## Error strings -/

/-- The subject length error; it cites `subject.length` (the length of
the original subject) and the JSONified suffix-stripped subject. -/
def lengthErrorOf (subject : JStr) : JStr :=
  "The subject exceeds the limit of 50 characters (got: ".data
    ++ (natChars subject.length
    ++ (", JSONified: ".data
    ++ (jsonQuote (stripHashSuffix subject)
    ++ ")".data)))

def capVerbError : JStr :=
  "The subject must start with a capitalized verb (e.g., \"Change\").".data

def imperativeMoodError (word : JStr) (additionalVerbs : List JStr) : JStr :=
  "The subject must start in imperative mood with one of the most frequent English verbs, but got: ".data
    ++ (jsonQuote word
    ++ (". Please see https://github.com/mristin/opinionated-commit-message/blob/master/src/mostFrequentEnglishVerbs.ts for a complete list".data
    ++ (if additionalVerbs.isEmpty then ".".data
        else " and also revisit your list of additional verbs.".data)))

def dotError : JStr :=
  "The subject must not end with a dot (".data
    ++ ([squote, '.', squote] ++ ").".data)

def tooFewError (n : Nat) : JStr :=
  "Expected at least three lines (subject, empty, body), but got: ".data
    ++ natChars n

def tooFewMultiError (n : Nat) : JStr :=
  "Expected at least three lines (subject, empty, body) in a multi-line message, but got: ".data
    ++ natChars n

def sepErrorOf (n : Nat) : JStr :=
  "Expected an empty line between the subject and the body, but got a second line of length: ".data
    ++ natChars n

def emptyBodyError1 : JStr :=
  "At least one line is expected in the body, but got empty body.".data

def emptyBodyError2 : JStr := "Unexpected empty body".data

def lineLengthError (i : Nat) (line : JStr) : JStr :=
  "The line ".data
    ++ (natChars (i + 3)
    ++ (" of the message (line ".data
    ++ (natChars (i + 1)
    ++ (" of the body) exceeds the limit of 72 characters. The line contains ".data
    ++ (natChars line.length
    ++ (" characters: ".data
    ++ (jsonQuote line
    ++ ".".data)))))))

def dupWordError (subjectFirstWord : JStr) : JStr :=
  "The first word of the subject (".data
    ++ (jsonQuote subjectFirstWord
    ++ ") must not match the first word of the body.".data)

def emptyMessageError : JStr := "The message is empty.".data

/-! ## splitSubjectBody -/

structure MaybeSubjectBody where
  subjectBody : Option (JStr × List JStr) := none
  errors : List JStr

/-- `splitSubjectBody` of `src/inspection.ts`. -/
def splitSubjectBody (lines : List JStr) : MaybeSubjectBody :=
  if lines.length = 0 ∨ lines.length = 1 then
    { subjectBody := none, errors := [tooFewError lines.length] }
  else if lines.length = 2 then
    { subjectBody := none, errors := [tooFewMultiError lines.length] }
  else
    { subjectBody := some (lines.headD [], lines.drop 2)
      errors :=
        if (lines.getD 1 []).length ≠ 0 then
          [sepErrorOf (lines.getD 1 []).length]
        else [] }

/-! ## checkSubject -/

/-- The precondition loop of `checkSubject`: the first offending
additional verb (in iteration order) produces the thrown message. -/
def verbsPrecondition : List JStr → Option JStr
  | [] => none
  | v :: rest =>
    if v.length = 0 then some "Unexpected empty additional verb".data
    else if v ≠ lowerStr v then
      some ("All additional verbs expected in lower case, but got: ".data ++ v)
    else verbsPrecondition rest

/-- The error list computed by `checkSubject` once the precondition
holds. -/
def subjectErrors (subject : JStr) (additionalVerbs : List JStr) : List JStr :=
  let subjectWoCode := stripHashSuffix subject
  (if 50 < subjectWoCode.length then [lengthErrorOf subject] else [])
  ++ ((match capitalizedWordMatch subjectWoCode with
      | none => [capVerbError]
      | some word =>
        if (mostFrequentEnglishVerbsSET.contains (lowerStr word)
            || additionalVerbs.contains (lowerStr word)) = true
        then []
        else [imperativeMoodError word additionalVerbs])
  ++ (if lastChar subjectWoCode = some '.' then [dotError] else []))

/-- `checkSubject` of `src/inspection.ts`; throwing is modelled with
`Except.error`. -/
def checkSubject (subject : JStr) (additionalVerbs : List JStr) :
    Except JStr (List JStr) :=
  match verbsPrecondition additionalVerbs with
  | some defect => .error defect
  | none => .ok (subjectErrors subject additionalVerbs)

/-! ## checkBody -/

/-- The per-line length loop of `checkBody`, carrying the current body
index. -/
def lineErrorsFrom : Nat → List JStr → List JStr
  | _, [] => []
  | i, line :: rest =>
    (if (urlLineTest line || linkDefTest line) = true then []
     else if 72 < line.length then [lineLengthError i line] else [])
    ++ lineErrorsFrom (i + 1) rest

/-- `String.prototype.trim`. -/
def trimJs (l : JStr) : JStr :=
  ((l.dropWhile (fun c => isJsSpace c)).reverse.dropWhile
    (fun c => isJsSpace c)).reverse

/-- The duplicate-first-word check of `checkBody`. -/
def dupErrors (subject b0 : JStr) : List JStr :=
  match capitalizedWordMatch b0 with
  | none => []
  | some bodyFirstWord =>
    match capitalizedWordMatch subject with
    | none => []
    | some subjectFirstWord =>
      if lowerStr subjectFirstWord = lowerStr bodyFirstWord
      then [dupWordError subjectFirstWord] else []

/-- `checkBody` of `src/inspection.ts`. -/
def checkBody (subject : JStr) (bodyLines : List JStr) : List JStr :=
  if bodyLines.length = 0 then [emptyBodyError1]
  else if bodyLines.length = 1 ∧ trimJs (bodyLines.headD []) = [] then
    [emptyBodyError2]
  else
    lineErrorsFrom 0 bodyLines ++ dupErrors subject (bodyLines.headD [])

/-! ## check -/

/-- `error.endsWith('\n')`. -/
def jsEndsWithNewline (e : JStr) : Bool := lastChar e == some '\n'

/-- `check` of `src/inspection.ts`.  Thrown defects are `Except.error`;
`Except.ok` carries the reported message violations. -/
def check (message : JStr) (additionalVerbs : List JStr)
    (allowOneLiners : Bool) : Except JStr (List JStr) :=
  if mergeMessageTest message = true then .ok []
  else
    let lines := splitLines message
    if lines.length = 0 then .ok [emptyMessageError]
    else
      let res : Except JStr (List JStr) :=
        if lines.length = 1 ∧ allowOneLiners = true then
          checkSubject (lines.headD []) additionalVerbs
        else
          let msb := splitSubjectBody lines
          if msb.errors ≠ [] then .ok msb.errors
          else
            match msb.subjectBody with
            | none => .error "Unexpected undefined subjectBody".data
            | some sb =>
              match checkSubject sb.1 additionalVerbs with
              | .error d => .error d
              | .ok se => .ok (se ++ checkBody sb.1 sb.2)
      match res with
      | .error d => .error d
      | .ok errors =>
        match errors.find? (fun e => jsEndsWithNewline e) with
        | some e =>
          .error ("Unexpected error ending in a new-line character: ".data ++ e)
        | none => .ok errors

instance : DecidableEq (Except JStr (List JStr)) := fun a b =>
  match a, b with
  | .error x, .error y =>
    if h : x = y then .isTrue (by rw [h])
    else .isFalse (fun hc => h (by cases hc; rfl))
  | .error _, .ok _ => .isFalse (fun hc => Except.noConfusion hc)
  | .ok _, .error _ => .isFalse (fun hc => Except.noConfusion hc)
  | .ok x, .ok y =>
    if h : x = y then .isTrue (by rw [h])
    else .isFalse (fun hc => h (by cases hc; rfl))

end Inspection

namespace Inspection

/-! ## Basic lemmas about the character-list toolkit -/

theorem natCharsCore_append (fuel : Nat) : ∀ (n : Nat) (acc : JStr),
    natCharsCore fuel n acc = natCharsCore fuel n [] ++ acc := by
  induction fuel with
  | zero => intro n acc; simp [natCharsCore]
  | succ fuel ih =>
    intro n acc
    by_cases h : n < 10
    · simp [natCharsCore, h]
    · simp only [natCharsCore, if_neg h]
      rw [ih (n / 10) (digitChar (n % 10) :: acc),
          ih (n / 10) [digitChar (n % 10)]]
      simp

theorem digitChar_toNat (d : Nat) (h : d < 10) : (digitChar d).toNat = 48 + d := by
  interval_cases d <;> rfl

theorem natCharsCore_digits (fuel : Nat) : ∀ (n : Nat) (acc : JStr),
    (∀ c ∈ acc, 48 ≤ c.toNat ∧ c.toNat ≤ 57) →
    ∀ c ∈ natCharsCore fuel n acc, 48 ≤ c.toNat ∧ c.toNat ≤ 57 := by
  induction fuel with
  | zero => intro n acc hacc; simpa [natCharsCore] using hacc
  | succ fuel ih =>
    intro n acc hacc c hc
    by_cases h : n < 10
    · simp only [natCharsCore, if_pos h, List.mem_cons] at hc
      rcases hc with rfl | hc
      · rw [digitChar_toNat n h]; omega
      · exact hacc c hc
    · simp only [natCharsCore, if_neg h] at hc
      refine ih (n / 10) _ ?_ c hc
      intro d hd
      rcases List.mem_cons.mp hd with rfl | hd
      · rw [digitChar_toNat _ (Nat.mod_lt _ (by omega))]
        have := Nat.mod_lt n (y := 10) (by omega)
        omega
      · exact hacc d hd

theorem natChars_digits (n : Nat) : ∀ c ∈ natChars n, 48 ≤ c.toNat ∧ c.toNat ≤ 57 :=
  natCharsCore_digits (n + 1) n [] (by simp)

theorem natCharsCore_ne_nil (fuel : Nat) : ∀ (n : Nat) (acc : JStr),
    n < fuel → natCharsCore fuel n acc ≠ [] := by
  induction fuel with
  | zero => intro n acc h; omega
  | succ fuel ih =>
    intro n acc h
    by_cases h10 : n < 10
    · simp [natCharsCore, h10]
    · simp only [natCharsCore, if_neg h10]
      have : n / 10 < n := Nat.div_lt_self (by omega) (by omega)
      exact ih (n / 10) _ (by omega)

theorem natChars_ne_nil (n : Nat) : natChars n ≠ [] :=
  natCharsCore_ne_nil (n + 1) n [] (by omega)

def digitVal (c : Char) : Nat := c.toNat - 48

def listVal (l : JStr) : Nat := l.foldl (fun a c => 10 * a + digitVal c) 0

theorem listVal_append_digit (a : JStr) (d : Char) :
    listVal (a ++ [d]) = 10 * listVal a + digitVal d := by
  simp [listVal, List.foldl_append]

theorem natCharsCore_val (fuel : Nat) : ∀ n : Nat, n < fuel →
    listVal (natCharsCore fuel n []) = n := by
  induction fuel with
  | zero => intro n h; omega
  | succ fuel ih =>
    intro n h
    by_cases h10 : n < 10
    · simp only [natCharsCore, if_pos h10]
      simp [listVal, digitVal, digitChar_toNat n h10]
    · simp only [natCharsCore, if_neg h10]
      rw [natCharsCore_append, listVal_append_digit]
      have hdiv : n / 10 < fuel := by
        have : n / 10 < n := Nat.div_lt_self (by omega) (by omega)
        omega
      rw [ih (n / 10) hdiv]
      have hm : n % 10 < 10 := Nat.mod_lt _ (by omega)
      rw [digitVal, digitChar_toNat _ hm]
      omega

theorem natChars_val (n : Nat) : listVal (natChars n) = n :=
  natCharsCore_val (n + 1) n (by omega)

theorem natChars_inj {a b : Nat} (h : natChars a = natChars b) : a = b := by
  have := natChars_val a
  rw [h, natChars_val] at this
  omega

theorem nthChar_append_left : ∀ (p q : JStr) (n : Nat), n < p.length →
    nthChar (p ++ q) n = nthChar p n := by
  intro p
  induction p with
  | nil => intro q n h; simp at h
  | cons c rest ih =>
    intro q n h
    cases n with
    | zero => rfl
    | succ n =>
      simp only [List.cons_append, nthChar]
      exact ih q n (by simpa using h)

theorem ne_of_nthChar {a b : JStr} (n : Nat)
    (h : nthChar a n ≠ nthChar b n) : a ≠ b := by
  intro hab; rw [hab] at h; exact h rfl

theorem lastChar_cons (c d : Char) (l : JStr) :
    lastChar (c :: d :: l) = lastChar (d :: l) := rfl

theorem lastChar_append : ∀ (p q : JStr), q ≠ [] →
    lastChar (p ++ q) = lastChar q := by
  intro p
  induction p with
  | nil => intro q h; rfl
  | cons c rest ih =>
    intro q h
    have hne : rest ++ q ≠ [] := by
      simp only [ne_eq, List.append_eq_nil]
      rintro ⟨rfl, rfl⟩; exact h rfl
    cases hc : rest ++ q with
    | nil => exact absurd hc hne
    | cons d t =>
      calc lastChar (c :: rest ++ q) = lastChar (c :: (rest ++ q)) := rfl
        _ = lastChar (rest ++ q) := by rw [hc]; rfl
        _ = lastChar q := ih q h

theorem lastChar_mem : ∀ (l : JStr) (c : Char), lastChar l = some c → c ∈ l := by
  intro l
  induction l with
  | nil => intro c h; simp [lastChar] at h
  | cons a rest ih =>
    intro c h
    cases rest with
    | nil => simp only [lastChar, Option.some.injEq] at h; simp [h]
    | cons b t =>
      rw [lastChar_cons] at h
      exact List.mem_cons_of_mem a (ih c h)

/-! ## Fingerprint characters distinguishing the error kinds -/

theorem nth12_lengthErrorOf (s : JStr) :
    nthChar (lengthErrorOf s) 12 = some 'e' := by
  rw [lengthErrorOf, nthChar_append_left _ _ _ (by decide)]; decide

theorem nth4_lengthErrorOf (s : JStr) :
    nthChar (lengthErrorOf s) 4 = some 's' := by
  rw [lengthErrorOf, nthChar_append_left _ _ _ (by decide)]; decide

theorem nth4_imperativeMoodError (w : JStr) (v : List JStr) :
    nthChar (imperativeMoodError w v) 4 = some 's' := by
  rw [imperativeMoodError, nthChar_append_left _ _ _ (by decide)]; decide

theorem nth12_imperativeMoodError (w : JStr) (v : List JStr) :
    nthChar (imperativeMoodError w v) 12 = some 'm' := by
  rw [imperativeMoodError, nthChar_append_left _ _ _ (by decide)]; decide

theorem nth17_imperativeMoodError (w : JStr) (v : List JStr) :
    nthChar (imperativeMoodError w v) 17 = some 's' := by
  rw [imperativeMoodError, nthChar_append_left _ _ _ (by decide)]; decide

theorem nth23_imperativeMoodError (w : JStr) (v : List JStr) :
    nthChar (imperativeMoodError w v) 23 = some 'i' := by
  rw [imperativeMoodError, nthChar_append_left _ _ _ (by decide)]; decide

theorem nth4_tooFewError (n : Nat) :
    nthChar (tooFewError n) 4 = some 'c' := by
  rw [tooFewError, nthChar_append_left _ _ _ (by decide)]; decide

theorem nth4_tooFewMultiError (n : Nat) :
    nthChar (tooFewMultiError n) 4 = some 'c' := by
  rw [tooFewMultiError, nthChar_append_left _ _ _ (by decide)]; decide

theorem nth4_sepErrorOf (n : Nat) :
    nthChar (sepErrorOf n) 4 = some 'c' := by
  rw [sepErrorOf, nthChar_append_left _ _ _ (by decide)]; decide

theorem nth4_lineLengthError (i : Nat) (line : JStr) :
    nthChar (lineLengthError i line) 4 = some 'l' := by
  rw [lineLengthError, nthChar_append_left _ _ _ (by decide)]; decide

theorem nth4_dupWordError (w : JStr) :
    nthChar (dupWordError w) 4 = some 'f' := by
  rw [dupWordError, nthChar_append_left _ _ _ (by decide)]; decide

theorem lengthError_ne_capVerb (s : JStr) : lengthErrorOf s ≠ capVerbError :=
  ne_of_nthChar 12 (by rw [nth12_lengthErrorOf]; decide)

theorem lengthError_ne_imperative (s w : JStr) (v : List JStr) :
    lengthErrorOf s ≠ imperativeMoodError w v :=
  ne_of_nthChar 12 (by rw [nth12_lengthErrorOf, nth12_imperativeMoodError]; decide)

theorem lengthError_ne_dot (s : JStr) : lengthErrorOf s ≠ dotError :=
  ne_of_nthChar 12 (by rw [nth12_lengthErrorOf]; decide)

theorem capVerb_ne_imperative (w : JStr) (v : List JStr) :
    capVerbError ≠ imperativeMoodError w v :=
  ne_of_nthChar 23 (by rw [nth23_imperativeMoodError]; decide)

theorem capVerb_ne_dot : capVerbError ≠ dotError := by decide

theorem imperative_ne_dot (w : JStr) (v : List JStr) :
    imperativeMoodError w v ≠ dotError :=
  ne_of_nthChar 17 (by rw [nth17_imperativeMoodError]; decide)

theorem dupWord_ne_lineLength (w : JStr) (i : Nat) (line : JStr) :
    dupWordError w ≠ lineLengthError i line :=
  ne_of_nthChar 4 (by rw [nth4_dupWordError, nth4_lineLengthError]; decide)

theorem dupWord_ne_emptyBody1 (w : JStr) : dupWordError w ≠ emptyBodyError1 :=
  ne_of_nthChar 4 (by rw [nth4_dupWordError]; decide)

theorem dupWord_ne_emptyBody2 (w : JStr) : dupWordError w ≠ emptyBodyError2 :=
  ne_of_nthChar 4 (by rw [nth4_dupWordError]; decide)

/-! ## Membership characterisations -/

theorem mem_subjectErrors (s : JStr) (v : List JStr) (e : JStr) :
    e ∈ subjectErrors s v ↔
      (50 < (stripHashSuffix s).length ∧ e = lengthErrorOf s)
      ∨ (capitalizedWordMatch (stripHashSuffix s) = none ∧ e = capVerbError)
      ∨ (∃ w, capitalizedWordMatch (stripHashSuffix s) = some w ∧
          (mostFrequentEnglishVerbsSET.contains (lowerStr w)
            || v.contains (lowerStr w)) = false ∧
          e = imperativeMoodError w v)
      ∨ (lastChar (stripHashSuffix s) = some '.' ∧ e = dotError) := by
  simp only [subjectErrors]
  by_cases h50 : 50 < (stripHashSuffix s).length <;>
    by_cases hdot : lastChar (stripHashSuffix s) = some '.' <;>
      rcases hcap : capitalizedWordMatch (stripHashSuffix s) with _ | w <;>
        (simp [h50, hdot, hcap, List.mem_append]; try tauto)

theorem mem_lineErrorsFrom (e : JStr) : ∀ (xs : List JStr) (k : Nat),
    e ∈ lineErrorsFrom k xs ↔
      ∃ j line, nthItem xs j = some line ∧
        (urlLineTest line || linkDefTest line) = false ∧
        72 < line.length ∧ e = lineLengthError (k + j) line := by
  intro xs
  induction xs with
  | nil => intro k; simp [lineErrorsFrom, nthItem]
  | cons line rest ih =>
    intro k
    simp only [lineErrorsFrom, List.mem_append]
    rw [ih (k + 1)]
    constructor
    · rintro (hhead | ⟨j, l, h1, h2, h3, h4⟩)
      · by_cases hex : (urlLineTest line || linkDefTest line) = true
        · simp [hex] at hhead
        · by_cases hlen : 72 < line.length
          · simp only [if_neg hex, if_pos hlen, List.mem_singleton] at hhead
            refine ⟨0, line, rfl, by simpa using hex, hlen, by simpa using hhead⟩
          · simp [hex, hlen] at hhead
      · refine ⟨j + 1, l, h1, h2, h3, ?_⟩
        rw [h4]
        congr 1
        omega
    · rintro ⟨j, l, h1, h2, h3, h4⟩
      cases j with
      | zero =>
        left
        simp only [nthItem, Option.some.injEq] at h1
        subst h1
        rw [if_neg (by simp [h2]), if_pos h3]
        simpa using h4
      | succ j =>
        right
        exact ⟨j, l, h1, h2, h3, by rw [h4]; congr 1; omega⟩

/-! ## No produced error ends in a newline -/

theorem append_ne_nil_right {p q : JStr} (h : q ≠ []) : p ++ q ≠ [] := by
  simp only [ne_eq, List.append_eq_nil]
  rintro ⟨_, rfl⟩; exact h rfl

theorem jsEnds_false_of_ne {l : JStr} {c : Char} (h : lastChar l = some c)
    (hc : c ≠ '\n') : jsEndsWithNewline l = false := by
  rw [jsEndsWithNewline, h]
  exact beq_eq_false_iff_ne.mpr (by simpa using hc)

theorem noNl_natChars_tail (p : JStr) (n : Nat) :
    jsEndsWithNewline (p ++ natChars n) = false := by
  rw [jsEndsWithNewline, lastChar_append _ _ (natChars_ne_nil n)]
  cases h : lastChar (natChars n) with
  | none => rfl
  | some c =>
    have hd := natChars_digits n c (lastChar_mem _ c h)
    refine beq_eq_false_iff_ne.mpr ?_
    simp only [ne_eq, Option.some.injEq]
    intro hc
    rw [hc] at hd
    exact absurd hd (by decide)

theorem noNl_lengthErrorOf (s : JStr) :
    jsEndsWithNewline (lengthErrorOf s) = false := by
  refine jsEnds_false_of_ne (c := ')') ?_ (by decide)
  rw [lengthErrorOf,
      lastChar_append _ _
        (append_ne_nil_right (append_ne_nil_right (append_ne_nil_right (by decide)))),
      lastChar_append _ _ (append_ne_nil_right (append_ne_nil_right (by decide))),
      lastChar_append _ _ (append_ne_nil_right (by decide)),
      lastChar_append _ _ (by decide)]
  decide

theorem noNl_imperativeMoodError (w : JStr) (v : List JStr) :
    jsEndsWithNewline (imperativeMoodError w v) = false := by
  have hIf : (if v.isEmpty then ".".data
      else " and also revisit your list of additional verbs.".data) ≠ [] := by
    by_cases hv : v.isEmpty <;> simp [hv]
  refine jsEnds_false_of_ne (c := '.') ?_ (by decide)
  rw [imperativeMoodError,
      lastChar_append _ _ (append_ne_nil_right (append_ne_nil_right hIf)),
      lastChar_append _ _ (append_ne_nil_right hIf),
      lastChar_append _ _ hIf]
  by_cases hv : v.isEmpty <;> simp [hv] <;> decide

theorem noNl_lineLengthError (i : Nat) (line : JStr) :
    jsEndsWithNewline (lineLengthError i line) = false := by
  refine jsEnds_false_of_ne (c := '.') ?_ (by decide)
  rw [lineLengthError]
  rw [lastChar_append _ _ (append_ne_nil_right (append_ne_nil_right
        (append_ne_nil_right (append_ne_nil_right (append_ne_nil_right
          (append_ne_nil_right (append_ne_nil_right (by decide))))))))]
  rw [lastChar_append _ _ (append_ne_nil_right (append_ne_nil_right
        (append_ne_nil_right (append_ne_nil_right (append_ne_nil_right
          (append_ne_nil_right (by decide)))))))]
  rw [lastChar_append _ _ (append_ne_nil_right (append_ne_nil_right
        (append_ne_nil_right (append_ne_nil_right (append_ne_nil_right
          (by decide))))))]
  rw [lastChar_append _ _ (append_ne_nil_right (append_ne_nil_right
        (append_ne_nil_right (append_ne_nil_right (by decide)))))]
  rw [lastChar_append _ _ (append_ne_nil_right (append_ne_nil_right
        (append_ne_nil_right (by decide))))]
  rw [lastChar_append _ _ (append_ne_nil_right (append_ne_nil_right (by decide)))]
  rw [lastChar_append _ _ (append_ne_nil_right (by decide))]
  rw [lastChar_append _ _ (by decide)]
  decide

theorem noNl_dupWordError (w : JStr) :
    jsEndsWithNewline (dupWordError w) = false := by
  refine jsEnds_false_of_ne (c := '.') ?_ (by decide)
  rw [dupWordError,
      lastChar_append _ _ (append_ne_nil_right (by decide)),
      lastChar_append _ _ (by decide)]
  decide

theorem noNl_tooFewError (n : Nat) : jsEndsWithNewline (tooFewError n) = false := by
  rw [tooFewError]; exact noNl_natChars_tail _ n

theorem noNl_tooFewMultiError (n : Nat) :
    jsEndsWithNewline (tooFewMultiError n) = false := by
  rw [tooFewMultiError]; exact noNl_natChars_tail _ n

theorem noNl_sepErrorOf (n : Nat) : jsEndsWithNewline (sepErrorOf n) = false := by
  rw [sepErrorOf]; exact noNl_natChars_tail _ n

theorem noNl_subjectErrors (s : JStr) (v : List JStr) :
    ∀ e ∈ subjectErrors s v, jsEndsWithNewline e = false := by
  intro e he
  rcases (mem_subjectErrors s v e).mp he with
    ⟨_, rfl⟩ | ⟨_, rfl⟩ | ⟨w, _, _, rfl⟩ | ⟨_, rfl⟩
  · exact noNl_lengthErrorOf s
  · decide
  · exact noNl_imperativeMoodError w v
  · decide

theorem noNl_dupErrors (s b0 : JStr) :
    ∀ e ∈ dupErrors s b0, jsEndsWithNewline e = false := by
  intro e he
  rw [dupErrors] at he
  rcases hb : capitalizedWordMatch b0 with _ | bw <;> simp only [hb] at he
  · simp at he
  · rcases hs : capitalizedWordMatch s with _ | sw <;> simp only [hs] at he
    · simp at he
    · by_cases heq : lowerStr sw = lowerStr bw
      · rw [if_pos heq, List.mem_singleton] at he
        rw [he]
        exact noNl_dupWordError sw
      · simp [heq] at he

theorem noNl_checkBody (s : JStr) (b : List JStr) :
    ∀ e ∈ checkBody s b, jsEndsWithNewline e = false := by
  intro e he
  rw [checkBody] at he
  by_cases h0 : b.length = 0
  · rw [if_pos h0, List.mem_singleton] at he
    rw [he]; decide
  · rw [if_neg h0] at he
    by_cases h1 : b.length = 1 ∧ trimJs (b.headD []) = []
    · rw [if_pos h1, List.mem_singleton] at he
      rw [he]; decide
    · rw [if_neg h1, List.mem_append] at he
      rcases he with he | he
      · obtain ⟨j, line, _, _, _, rfl⟩ := (mem_lineErrorsFrom e b 0).mp he
        exact noNl_lineLengthError _ line
      · exact noNl_dupErrors s (b.headD []) e he

/-! ## Lemmas about line splitting and the merge pattern -/

theorem splitOnNl_ne_nil : ∀ m : JStr, splitOnNl m ≠ [] := by
  intro m
  cases m with
  | nil => simp [splitOnNl]
  | cons c rest =>
    simp only [splitOnNl]
    by_cases h : c = '\n'
    · simp [h]
    · rw [if_neg h]
      cases hs : splitOnNl rest <;> simp

theorem splitLines_ne_nil (m : JStr) : splitLines m ≠ [] := by
  rw [splitLines]
  simp [splitOnNl_ne_nil m]

theorem splitOnNl_no_nl : ∀ m : JStr, '\n' ∉ m → splitOnNl m = [m] := by
  intro m
  induction m with
  | nil => intro _; rfl
  | cons c rest ih =>
    intro h
    have hc : ¬(c = '\n') := fun hc => h (by rw [hc]; exact List.mem_cons_self _ _)
    have hr : '\n' ∉ rest := fun hr => h (List.mem_cons_of_mem _ hr)
    simp only [splitOnNl, if_neg hc, ih hr]

theorem splitLines_no_nl (m : JStr) (h : '\n' ∉ m) : splitLines m = [stripCr m] := by
  rw [splitLines, splitOnNl_no_nl m h]; rfl

theorem nl_mem_of_two_lines (m : JStr) (h : 2 ≤ (splitLines m).length) : '\n' ∈ m := by
  by_contra hn
  rw [splitLines_no_nl m hn] at h
  simp at h

theorem eq_append_of_isPrefixOf {p l : JStr} (h : p.isPrefixOf l = true) :
    l = p ++ l.drop p.length := by
  obtain ⟨t, ht⟩ := List.isPrefixOf_iff_prefix.mp h
  rw [← ht, List.drop_left]

theorem mergeSepList_length : mergeSepList.length = 7 := rfl

theorem mergeLoop_no_nl : ∀ t : JStr, mergeLoop t = true → '\n' ∉ t := by
  intro t
  induction t with
  | nil => intro h; simp [mergeLoop] at h
  | cons c rest ih =>
    intro h hmem
    simp only [mergeLoop, Bool.or_eq_true, Bool.and_eq_true] at h
    rcases h with ⟨hp, hrun⟩ | ⟨hc, hloop⟩
    · have heq := eq_append_of_isPrefixOf hp
      rw [mergeSepList_length] at heq
      rw [heq] at hmem
      rcases List.mem_append.mp hmem with h1 | h2
      · exact absurd h1 (by decide)
      · rw [mergeRefRun, Bool.and_eq_true] at hrun
        have := List.all_eq_true.mp hrun.2 '\n' h2
        exact absurd this (by decide)
    · rcases List.mem_cons.mp hmem with h1 | h1
      · rw [← h1] at hc
        exact absurd hc (by decide)
      · exact ih hloop h1

theorem mergeTest_no_nl (m : JStr) (h : mergeMessageTest m = true) : '\n' ∉ m := by
  rw [mergeMessageTest] at h
  by_cases hp : mergeHead.isPrefixOf m = true
  · rw [if_pos hp] at h
    cases hd : m.drop mergeHead.length with
    | nil => rw [hd] at h; exact absurd h (by simp)
    | cons c t =>
      rw [hd] at h
      simp only [Bool.and_eq_true] at h
      intro hmem
      have heq := eq_append_of_isPrefixOf hp
      rw [hd] at heq
      rw [heq] at hmem
      rcases List.mem_append.mp hmem with h1 | h1
      · exact absurd h1 (by decide)
      · rcases List.mem_cons.mp h1 with h2 | h2
        · rw [← h2] at h
          exact absurd h.1 (by decide)
        · exact mergeLoop_no_nl t h.2 h2
  · rw [if_neg hp] at h
    exact absurd h (by simp)

theorem mergeTest_false_of_two_lines (m : JStr)
    (h : 2 ≤ (splitLines m).length) : mergeMessageTest m = false := by
  cases hmt : mergeMessageTest m with
  | false => rfl
  | true => exact absurd (nl_mem_of_two_lines m h) (mergeTest_no_nl m hmt)

theorem mergeLoop_sep : ∀ (x y : JStr), (∀ c ∈ x, isMergeRefChar c = true) →
    y ≠ [] → (∀ c ∈ y, isMergeRefChar c = true) →
    mergeLoop (x ++ (mergeSepList ++ y)) = true := by
  intro x
  induction x with
  | nil =>
    intro y _ hy hally
    have hdrop : (mergeSepList ++ y).drop 7 = y := by
      have := List.drop_left mergeSepList y
      rwa [mergeSepList_length] at this
    have hcons : mergeSepList ++ y = squote :: (" into ".data ++ y) := rfl
    rw [List.nil_append, hcons, mergeLoop, ← hcons, hdrop]
    have hpre : mergeSepList.isPrefixOf (mergeSepList ++ y) = true :=
      List.isPrefixOf_iff_prefix.mpr ⟨y, rfl⟩
    rw [hpre]
    have hrun : mergeRefRun y = true := by
      rw [mergeRefRun, Bool.and_eq_true]
      exact ⟨by simp [hy], List.all_eq_true.mpr hally⟩
    rw [hrun]
    rfl
  | cons c x' ih =>
    intro y hx hy hally
    simp only [List.cons_append, mergeLoop, Bool.or_eq_true, Bool.and_eq_true]
    right
    exact ⟨hx c (List.mem_cons_self _ _),
      ih y (fun d hd => hx d (List.mem_cons_of_mem _ hd)) hy hally⟩

theorem mergeTest_of_refs (r1 r2 : JStr) (h1 : r1 ≠ [])
    (ha1 : ∀ c ∈ r1, isMergeRefChar c = true)
    (h2 : r2 ≠ []) (ha2 : ∀ c ∈ r2, isMergeRefChar c = true) :
    mergeMessageTest (mergeHead ++ (r1 ++ (mergeSepList ++ r2))) = true := by
  have hpre : mergeHead.isPrefixOf (mergeHead ++ (r1 ++ (mergeSepList ++ r2))) = true :=
    List.isPrefixOf_iff_prefix.mpr ⟨_, rfl⟩
  rw [mergeMessageTest, if_pos hpre, List.drop_left]
  cases r1 with
  | nil => exact absurd rfl h1
  | cons c r1' =>
    rw [List.cons_append]
    simp only [Bool.and_eq_true]
    exact ⟨ha1 c (List.mem_cons_self _ _),
      mergeLoop_sep r1' r2 (fun d hd => ha1 d (List.mem_cons_of_mem _ hd)) h2 ha2⟩

/-! ## Inversion of `check` -/

theorem nth4_subjectErrors (s : JStr) (v : List JStr) :
    ∀ e ∈ subjectErrors s v, nthChar e 4 = some 's' := by
  intro e he
  rcases (mem_subjectErrors s v e).mp he with
    ⟨_, rfl⟩ | ⟨_, rfl⟩ | ⟨w, _, _, rfl⟩ | ⟨_, rfl⟩
  · exact nth4_lengthErrorOf s
  · decide
  · exact nth4_imperativeMoodError w v
  · decide

theorem noNl_splitErrors (lines : List JStr) :
    ∀ e ∈ (splitSubjectBody lines).errors, jsEndsWithNewline e = false := by
  intro e he
  rw [splitSubjectBody] at he
  by_cases h01 : lines.length = 0 ∨ lines.length = 1
  · rw [if_pos h01] at he
    simp only [List.mem_singleton] at he
    rw [he]; exact noNl_tooFewError _
  · rw [if_neg h01] at he
    by_cases h2 : lines.length = 2
    · rw [if_pos h2] at he
      simp only [List.mem_singleton] at he
      rw [he]; exact noNl_tooFewMultiError _
    · rw [if_neg h2] at he
      simp only at he
      by_cases hsep : (lines.getD 1 []).length ≠ 0
      · rw [if_pos hsep] at he
        simp only [List.mem_singleton] at he
        rw [he]; exact noNl_sepErrorOf _
      · rw [if_neg hsep] at he
        simp at he

theorem nth4_splitErrors (lines : List JStr) :
    ∀ e ∈ (splitSubjectBody lines).errors, nthChar e 4 = some 'c' := by
  intro e he
  rw [splitSubjectBody] at he
  by_cases h01 : lines.length = 0 ∨ lines.length = 1
  · rw [if_pos h01] at he
    simp only [List.mem_singleton] at he
    rw [he]; exact nth4_tooFewError _
  · rw [if_neg h01] at he
    by_cases h2 : lines.length = 2
    · rw [if_pos h2] at he
      simp only [List.mem_singleton] at he
      rw [he]; exact nth4_tooFewMultiError _
    · rw [if_neg h2] at he
      simp only at he
      by_cases hsep : (lines.getD 1 []).length ≠ 0
      · rw [if_pos hsep] at he
        simp only [List.mem_singleton] at he
        rw [he]; exact nth4_sepErrorOf _
      · rw [if_neg hsep] at he
        simp at he

theorem splitSubjectBody_some (lines : List JStr)
    (h : (splitSubjectBody lines).errors = []) :
    (splitSubjectBody lines).subjectBody = some (lines.headD [], lines.drop 2) := by
  rw [splitSubjectBody] at h ⊢
  by_cases h01 : lines.length = 0 ∨ lines.length = 1
  · rw [if_pos h01] at h; simp at h
  · rw [if_neg h01] at h ⊢
    by_cases h2 : lines.length = 2
    · rw [if_pos h2] at h; simp at h
    · rw [if_neg h2]

theorem find?_none_of_noNl {l : List JStr}
    (h : ∀ e ∈ l, jsEndsWithNewline e = false) :
    l.find? (fun e => jsEndsWithNewline e) = none :=
  List.find?_eq_none.mpr (fun e he => by simp [h e he])

theorem check_ok_cases (m : JStr) (verbs : List JStr) (flag : Bool)
    (errs : List JStr) (h : check m verbs flag = Except.ok errs) :
    (mergeMessageTest m = true ∧ errs = [])
    ∨ (mergeMessageTest m = false ∧ (splitLines m).length = 1 ∧ flag = true ∧
        verbsPrecondition verbs = none ∧
        errs = subjectErrors ((splitLines m).headD []) verbs)
    ∨ (mergeMessageTest m = false ∧ ¬((splitLines m).length = 1 ∧ flag = true) ∧
        (splitSubjectBody (splitLines m)).errors ≠ [] ∧
        errs = (splitSubjectBody (splitLines m)).errors)
    ∨ (mergeMessageTest m = false ∧ ¬((splitLines m).length = 1 ∧ flag = true) ∧
        (splitSubjectBody (splitLines m)).errors = [] ∧
        verbsPrecondition verbs = none ∧
        errs = subjectErrors ((splitLines m).headD []) verbs
          ++ checkBody ((splitLines m).headD []) ((splitLines m).drop 2)) := by
  rw [check] at h
  cases hmt : mergeMessageTest m with
  | true =>
    rw [if_pos hmt] at h
    exact Or.inl ⟨rfl, (Except.ok.inj h).symm⟩
  | false =>
    rw [if_neg (by simp [hmt])] at h
    have h0 : ¬((splitLines m).length = 0) := by
      simpa [List.length_eq_zero] using splitLines_ne_nil m
    rw [if_neg h0] at h
    by_cases hone : (splitLines m).length = 1 ∧ flag = true
    · rw [if_pos hone] at h
      cases hcs : verbsPrecondition verbs with
      | some d =>
        simp only [checkSubject, hcs] at h
        exact Except.noConfusion h
      | none =>
        simp only [checkSubject, hcs,
          find?_none_of_noNl (noNl_subjectErrors ((splitLines m).headD []) verbs)] at h
        exact Or.inr (Or.inl ⟨rfl, hone.1, hone.2, rfl, (Except.ok.inj h).symm⟩)
    · rw [if_neg hone] at h
      by_cases herr : (splitSubjectBody (splitLines m)).errors = []
      · rw [if_neg (by simpa using herr), splitSubjectBody_some _ herr] at h
        cases hcs : verbsPrecondition verbs with
        | some d =>
          simp only [checkSubject, hcs] at h
          exact Except.noConfusion h
        | none =>
          simp only [checkSubject, hcs,
            find?_none_of_noNl (l :=
              subjectErrors ((splitLines m).headD []) verbs
                ++ checkBody ((splitLines m).headD []) ((splitLines m).drop 2))
              (fun e he => by
                rcases List.mem_append.mp he with h1 | h1
                · exact noNl_subjectErrors _ _ e h1
                · exact noNl_checkBody _ _ e h1)] at h
          exact Or.inr (Or.inr (Or.inr ⟨rfl, hone, herr, rfl, (Except.ok.inj h).symm⟩))
      · rw [if_pos (by simpa using herr)] at h
        simp only [find?_none_of_noNl (noNl_splitErrors (splitLines m))] at h
        exact Or.inr (Or.inr (Or.inl ⟨rfl, hone, herr, (Except.ok.inj h).symm⟩))

theorem check_of_splitErrors (m : JStr) (verbs : List JStr) (flag : Bool)
    (hmt : mergeMessageTest m = false)
    (hone : ¬((splitLines m).length = 1 ∧ flag = true))
    (herr : (splitSubjectBody (splitLines m)).errors ≠ []) :
    check m verbs flag = Except.ok (splitSubjectBody (splitLines m)).errors := by
  have h0 : ¬((splitLines m).length = 0) := by
    simpa [List.length_eq_zero] using splitLines_ne_nil m
  simp only [check, if_neg (by simp [hmt] : ¬(mergeMessageTest m = true)),
    if_neg h0, if_neg hone, if_pos herr,
    find?_none_of_noNl (noNl_splitErrors (splitLines m))]

theorem check_oneliner (m : JStr) (verbs : List JStr)
    (hmt : mergeMessageTest m = false)
    (hlen : (splitLines m).length = 1)
    (hcs : verbsPrecondition verbs = none) :
    check m verbs true
      = Except.ok (subjectErrors ((splitLines m).headD []) verbs) := by
  simp [check, hmt, hlen, checkSubject, hcs, -List.headD_eq_head?_getD,
    find?_none_of_noNl (noNl_subjectErrors ((splitLines m).headD []) verbs)]

theorem mem_dupErrors (s b0 : JStr) (e : JStr) :
    e ∈ dupErrors s b0 ↔
      ∃ sw bw, capitalizedWordMatch s = some sw ∧
        capitalizedWordMatch b0 = some bw ∧
        lowerStr sw = lowerStr bw ∧ e = dupWordError sw := by
  rcases hb : capitalizedWordMatch b0 with _ | bw
  · simp [dupErrors, hb]
  · rcases hs : capitalizedWordMatch s with _ | sw
    · simp [dupErrors, hb, hs]
    · by_cases heq : lowerStr sw = lowerStr bw
      · simp [dupErrors, hb, hs, heq]
      · simp [dupErrors, hb, hs, heq]

theorem mem_checkBody (s : JStr) (b : List JStr) (e : JStr) :
    e ∈ checkBody s b ↔
      (b.length = 0 ∧ e = emptyBodyError1)
      ∨ (¬(b.length = 0) ∧ (b.length = 1 ∧ trimJs (b.headD []) = []) ∧
          e = emptyBodyError2)
      ∨ (¬(b.length = 0) ∧ ¬(b.length = 1 ∧ trimJs (b.headD []) = []) ∧
          (e ∈ lineErrorsFrom 0 b ∨ e ∈ dupErrors s (b.headD []))) := by
  rw [checkBody]
  by_cases h0 : b.length = 0
  · rw [if_pos h0]; simp [h0, -List.headD_eq_head?_getD]
  · rw [if_neg h0]
    by_cases h1 : b.length = 1 ∧ trimJs (b.headD []) = []
    · rw [if_pos h1]; simp [h0, h1, -List.headD_eq_head?_getD]
    · rw [if_neg h1]; simp [h0, h1, List.mem_append, -List.headD_eq_head?_getD]

theorem emptyMessage_notin_checkBody (s : JStr) (b : List JStr) :
    emptyMessageError ∉ checkBody s b := by
  intro h
  rcases (mem_checkBody s b _).mp h with
    ⟨_, he⟩ | ⟨_, _, he⟩ | ⟨_, _, he | he⟩
  · exact absurd he (by decide)
  · exact absurd he (by decide)
  · obtain ⟨j, line, _, _, _, he⟩ := (mem_lineErrorsFrom _ b 0).mp he
    have := nth4_lineLengthError (0 + j) line
    rw [← he] at this
    exact absurd this (by decide)
  · obtain ⟨sw, _, _, _, _, he⟩ := (mem_dupErrors s _ _).mp he
    have := nth4_dupWordError sw
    rw [← he] at this
    exact absurd this (by decide)

/-! ## Claim theorems -/

/-- C1 counterexample: the claim says a message *beginning* with a merge
line is exempt regardless of the remaining content, but the merge regex
is anchored to the whole string (`$`, and `\n` is excluded from the
reference character class), so `Merge branch 'a' into b` followed by a
second line `X` is checked normally and yields the two-line structural
error, not `[]`. -/
theorem C1_merge_multiline_cex :
    check (mergeHead ++ ("a".data ++ (mergeSepList ++ ("b".data
        ++ ('\n' :: "X".data))))) [] false
      = Except.ok [tooFewMultiError 2]
    ∧ Except.ok [tooFewMultiError 2] ≠ (Except.ok [] : Except JStr (List JStr)) :=
  ⟨by decide, by decide⟩

/-- C1 (amended): for every message that consists *exactly* of
`Merge branch '<r1>' into <r2>` with `r1`, `r2` nonempty and free of
control characters, DEL, space, `~`, `^`, `:`, `?`, `*` and `[`, `check`
returns the empty error list immediately, bypassing all other rules, for
any verb whitelist and one-liner flag. -/
theorem C1_merge_exact (r1 r2 : JStr) (verbs : List JStr) (flag : Bool)
    (h1 : r1 ≠ []) (ha1 : ∀ c ∈ r1, isMergeRefChar c = true)
    (h2 : r2 ≠ []) (ha2 : ∀ c ∈ r2, isMergeRefChar c = true) :
    check (mergeHead ++ (r1 ++ (mergeSepList ++ r2))) verbs flag
      = Except.ok [] := by
  rw [check, if_pos (mergeTest_of_refs r1 r2 h1 ha1 h2 ha2)]

/-- C1 witness: `Merge branch 'a' into b` alone is exempt. -/
theorem C1_merge_exact_witness :
    check (mergeHead ++ ("a".data ++ (mergeSepList ++ "b".data))) [] false
      = Except.ok [] :=
  C1_merge_exact "a".data "b".data [] false (by decide) (by decide)
    (by decide) (by decide)

/-- C3: for every message with at least three logical lines whose second
logical line is non-empty, `check` returns exactly the single separator
error naming the second line's length; the subject and body checks are
skipped, so no other error can co-occur with it. -/
theorem C3_separator_short_circuit (m : JStr) (verbs : List JStr) (flag : Bool)
    (h3 : 3 ≤ (splitLines m).length)
    (h1 : (splitLines m).getD 1 [] ≠ []) :
    check m verbs flag
      = Except.ok [sepErrorOf ((splitLines m).getD 1 []).length] := by
  have hmt := mergeTest_false_of_two_lines m (by omega)
  have hone : ¬((splitLines m).length = 1 ∧ flag = true) := by
    rintro ⟨hl, _⟩; omega
  have hsb : (splitSubjectBody (splitLines m)).errors
      = [sepErrorOf ((splitLines m).getD 1 []).length] := by
    rw [splitSubjectBody, if_neg (by omega : ¬((splitLines m).length = 0
          ∨ (splitLines m).length = 1)),
        if_neg (by omega : ¬((splitLines m).length = 2))]
    simp only
    rw [if_pos (by simpa [List.length_eq_zero] using h1)]
  rw [check_of_splitErrors m verbs flag hmt hone (by simp [hsb]), hsb]

/-- C3 witness: `A\nB\nC` yields exactly the separator error for the
one-character second line. -/
theorem C3_witness :
    check "A\nB\nC".data [] false = Except.ok [sepErrorOf 1] := by
  have h := C3_separator_short_circuit "A\nB\nC".data [] false
    (by decide) (by decide)
  exact h

/-- C6 counterexample: the claim says every message with exactly one
logical line and one-liners disallowed yields the structural error, but
a one-line canonical merge message is exempted first and yields `[]`. -/
theorem C6_merge_oneliner_cex :
    (splitLines (mergeHead ++ ("a".data ++ (mergeSepList ++ "b".data)))).length = 1
    ∧ check (mergeHead ++ ("a".data ++ (mergeSepList ++ "b".data))) [] false
        = Except.ok []
    ∧ (Except.ok [] : Except JStr (List JStr)) ≠ Except.ok [tooFewError 1] :=
  ⟨by decide, by decide, by decide⟩

/-- C6 (amended): for every message that does not match the merge
pattern, exactly one logical line with one-liners disallowed yields
exactly the structural error citing 1; exactly two logical lines yield
exactly the multi-line structural error citing 2 (for either flag); and
a non-merge one-line message with one-liners allowed is routed only to
the subject checker, whose result is returned unchanged. -/
theorem C6_line_count_routing (m : JStr) (verbs : List JStr) :
    (mergeMessageTest m = false → (splitLines m).length = 1 →
      check m verbs false = Except.ok [tooFewError 1])
    ∧ ((splitLines m).length = 2 → ∀ flag : Bool,
      check m verbs flag = Except.ok [tooFewMultiError 2])
    ∧ (mergeMessageTest m = false → (splitLines m).length = 1 →
      ∀ errs : List JStr, check m verbs true = Except.ok errs →
        checkSubject ((splitLines m).headD []) verbs = Except.ok errs) := by
  refine ⟨?_, ?_, ?_⟩
  · intro hmt hlen
    have hsb : (splitSubjectBody (splitLines m)).errors = [tooFewError 1] := by
      rw [splitSubjectBody, if_pos (Or.inr hlen)]
      simp only
      rw [hlen]
    have hone : ¬((splitLines m).length = 1 ∧ (false : Bool) = true) := by
      rintro ⟨_, hf⟩; exact Bool.false_ne_true hf
    rw [check_of_splitErrors m verbs false hmt hone (by simp [hsb]), hsb]
  · intro hlen flag
    have hmt := mergeTest_false_of_two_lines m (by omega)
    have hone : ¬((splitLines m).length = 1 ∧ flag = true) := by
      rintro ⟨hl, _⟩; omega
    have hsb : (splitSubjectBody (splitLines m)).errors = [tooFewMultiError 2] := by
      rw [splitSubjectBody, if_neg (by omega : ¬((splitLines m).length = 0
            ∨ (splitLines m).length = 1)), if_pos hlen]
      simp only
      rw [hlen]
    rw [check_of_splitErrors m verbs flag hmt hone (by simp [hsb]), hsb]
  · intro hmt hlen errs h
    rcases check_ok_cases m verbs true errs h with
      ⟨hm, _⟩ | ⟨_, _, _, hcs, rfl⟩ | ⟨_, hone, _, _⟩ | ⟨_, hone, _, _, _⟩
    · exact absurd hm (by simp [hmt])
    · rw [checkSubject, hcs]
    · exact absurd ⟨hlen, rfl⟩ hone
    · exact absurd ⟨hlen, rfl⟩ hone

/-- C6 witness: a plain one-liner with one-liners disallowed, `A\nB`
with two lines, and a valid one-liner routed to the subject checker. -/
theorem C6_witness :
    check "Fix".data [] false = Except.ok [tooFewError 1]
    ∧ check "A\nB".data [] true = Except.ok [tooFewMultiError 2]
    ∧ checkSubject ((splitLines "Do it".data).headD []) [] = Except.ok [] :=
  ⟨(C6_line_count_routing "Fix".data []).1 (by decide) (by decide),
   (C6_line_count_routing "A\nB".data []).2.1 (by decide) true,
   (C6_line_count_routing "Do it".data []).2.2 (by decide) (by decide) []
     (by decide)⟩

/-- C9: splitting on `\n` always yields at least one logical line (the
empty message yields one empty line), so the zero-lines branch of
`check` is unreachable and `check` never reports "The message is
empty."; the empty message instead yields the structural error
citing 1. -/
theorem C9_split_nonempty :
    (∀ m : JStr, splitLines m ≠ [])
    ∧ (∀ (m : JStr) (verbs : List JStr) (flag : Bool) (errs : List JStr),
        check m verbs flag = Except.ok errs → emptyMessageError ∉ errs)
    ∧ check [] [] false = Except.ok [tooFewError 1] := by
  refine ⟨splitLines_ne_nil, ?_, by decide⟩
  intro m verbs flag errs h hmem
  rcases check_ok_cases m verbs flag errs h with
    ⟨_, rfl⟩ | ⟨_, _, _, _, rfl⟩ | ⟨_, _, _, rfl⟩ | ⟨_, _, _, _, rfl⟩
  · exact absurd hmem (List.not_mem_nil _)
  · exact absurd (nth4_subjectErrors _ _ _ hmem) (by decide)
  · exact absurd (nth4_splitErrors _ _ hmem) (by decide)
  · rcases List.mem_append.mp hmem with h1 | h1
    · exact absurd (nth4_subjectErrors _ _ _ h1) (by decide)
    · exact absurd h1 (emptyMessage_notin_checkBody _ _)

/-- C9 witness: instantiation at the one-line message `Fix` and at the
structural error list of the empty message. -/
theorem C9_witness :
    splitLines "Fix".data ≠ [] ∧ emptyMessageError ∉ [tooFewError 1] :=
  ⟨C9_split_nonempty.1 "Fix".data,
   C9_split_nonempty.2.1 [] [] false [tooFewError 1] (by decide)⟩

/-- C2 counterexample: the claim says the length error cites the
stripped length, but the code cites `subject.length` (the original
length).  For a 57-character subject that strips to 52 characters, the
single produced error is `lengthErrorOf` (citing 57) and differs from
the error citing the stripped length 52 that the claim mandates. -/
theorem C2_length_cites_original_cex :
    (stripHashSuffix ("Change ".data ++ (List.replicate 45 'x'
        ++ " (#1)".data))).length = 52
    ∧ ("Change ".data ++ (List.replicate 45 'x' ++ " (#1)".data)).length = 57
    ∧ checkSubject ("Change ".data ++ (List.replicate 45 'x'
        ++ " (#1)".data)) []
      = Except.ok [lengthErrorOf ("Change ".data ++ (List.replicate 45 'x'
          ++ " (#1)".data))]
    ∧ lengthErrorOf ("Change ".data ++ (List.replicate 45 'x' ++ " (#1)".data))
      ≠ "The subject exceeds the limit of 50 characters (got: ".data
          ++ (natChars (stripHashSuffix ("Change ".data
                ++ (List.replicate 45 'x' ++ " (#1)".data))).length
          ++ (", JSONified: ".data
          ++ (jsonQuote (stripHashSuffix ("Change ".data
                ++ (List.replicate 45 'x' ++ " (#1)".data)))
          ++ ")".data))) :=
  ⟨by decide, by decide, by decide, by decide⟩

/-- C2 (amended): the hash-code suffix is stripped first and the length
error fires exactly when the suffix-stripped subject exceeds 50
characters; the emitted error cites the character count of the
*original* subject together with the JSON-quoted stripped text (see
`lengthErrorOf`).  In particular a 55-character subject ending in
` (#43)` that strips to at most 50 characters produces no length
error. -/
theorem C2_subject_length (subject : JStr) (verbs : List JStr)
    (errs : List JStr) (h : checkSubject subject verbs = Except.ok errs) :
    lengthErrorOf subject ∈ errs ↔ 50 < (stripHashSuffix subject).length := by
  have herrs : errs = subjectErrors subject verbs := by
    rw [checkSubject] at h
    cases hcs : verbsPrecondition verbs with
    | some d => rw [hcs] at h; exact Except.noConfusion h
    | none => rw [hcs] at h; exact (Except.ok.inj h).symm
  subst herrs
  rw [mem_subjectErrors]
  constructor
  · rintro (⟨h50, _⟩ | ⟨_, he⟩ | ⟨w, _, _, he⟩ | ⟨_, he⟩)
    · exact h50
    · exact absurd he (lengthError_ne_capVerb subject)
    · exact absurd he (lengthError_ne_imperative subject w verbs)
    · exact absurd he (lengthError_ne_dot subject)
  · intro h50
    exact Or.inl ⟨h50, rfl⟩

/-- C2 witness: a 55-character subject ending in ` (#43)` strips to 49
characters, so no length error is produced. -/
theorem C2_witness :
    lengthErrorOf ("Change ".data ++ (List.replicate 42 'x' ++ " (#43)".data))
        ∉ subjectErrors ("Change ".data ++ (List.replicate 42 'x'
          ++ " (#43)".data)) []
    ∧ ("Change ".data ++ (List.replicate 42 'x' ++ " (#43)".data)).length = 55
    ∧ (stripHashSuffix ("Change ".data ++ (List.replicate 42 'x'
        ++ " (#43)".data))).length = 49 := by
  refine ⟨?_, by decide, by decide⟩
  intro hmem
  have h50 := (C2_subject_length ("Change ".data ++ (List.replicate 42 'x'
      ++ " (#43)".data)) [] _ rfl).mp hmem
  exact absurd h50 (by decide)

/-- C4: for every stripped subject, the capitalized-verb error fires iff
the capitalized-word pattern finds no match; when a match with captured
word `w` exists, the imperative-mood error naming `w` fires iff the
lower-cased word is in neither the built-in verb set nor the
additional-verbs set; and the trailing-dot error fires iff the stripped
subject ends with `.`.  The three conditions are independent, so any
combination of these errors can appear in one report. -/
theorem C4_subject_rules (subject : JStr) (verbs : List JStr)
    (errs : List JStr) (h : checkSubject subject verbs = Except.ok errs) :
    (capVerbError ∈ errs ↔ capitalizedWordMatch (stripHashSuffix subject) = none)
    ∧ (∀ w, capitalizedWordMatch (stripHashSuffix subject) = some w →
        (imperativeMoodError w verbs ∈ errs ↔
          (mostFrequentEnglishVerbsSET.contains (lowerStr w)
            || verbs.contains (lowerStr w)) = false))
    ∧ (dotError ∈ errs ↔ lastChar (stripHashSuffix subject) = some '.') := by
  have herrs : errs = subjectErrors subject verbs := by
    rw [checkSubject] at h
    cases hcs : verbsPrecondition verbs with
    | some d => rw [hcs] at h; exact Except.noConfusion h
    | none => rw [hcs] at h; exact (Except.ok.inj h).symm
  subst herrs
  refine ⟨?_, ?_, ?_⟩
  · rw [mem_subjectErrors]
    constructor
    · rintro (⟨_, he⟩ | ⟨hc, _⟩ | ⟨w, _, _, he⟩ | ⟨_, he⟩)
      · exact absurd he.symm (lengthError_ne_capVerb subject)
      · exact hc
      · exact absurd he (capVerb_ne_imperative w verbs)
      · exact absurd he capVerb_ne_dot
    · intro hc
      exact Or.inr (Or.inl ⟨hc, rfl⟩)
  · intro w hw
    rw [mem_subjectErrors]
    constructor
    · rintro (⟨_, he⟩ | ⟨hc, _⟩ | ⟨w', hw', hv', he⟩ | ⟨_, he⟩)
      · exact absurd he.symm (lengthError_ne_imperative subject w verbs)
      · rw [hw] at hc; exact Option.noConfusion hc
      · rw [hw] at hw'
        cases Option.some.inj hw'
        exact hv'
      · exact absurd he (imperative_ne_dot w verbs)
    · intro hv
      exact Or.inr (Or.inr (Or.inl ⟨w, hw, hv, rfl⟩))
  · rw [mem_subjectErrors]
    constructor
    · rintro (⟨_, he⟩ | ⟨_, he⟩ | ⟨w, _, _, he⟩ | ⟨hd, _⟩)
      · exact absurd he.symm (lengthError_ne_dot subject)
      · exact absurd he.symm capVerb_ne_dot
      · exact absurd he.symm (imperative_ne_dot w verbs)
      · exact hd
    · intro hd
      exact Or.inr (Or.inr (Or.inr ⟨hd, rfl⟩))

/-- C4 witness: `hello there` (no capitalized-word match) fires the
capitalized-verb error; `Replaced thing` fires the imperative-mood
error for the non-whitelisted word `Replaced`; `Change it.` fires the
trailing-dot error. -/
theorem C4_witness :
    capVerbError ∈ subjectErrors "hello there".data []
    ∧ imperativeMoodError "Replaced".data []
        ∈ subjectErrors "Replaced thing".data []
    ∧ dotError ∈ subjectErrors "Change it.".data [] :=
  ⟨(C4_subject_rules "hello there".data [] _ rfl).1.mpr (by decide),
   ((C4_subject_rules "Replaced thing".data [] _ rfl).2.1 "Replaced".data
     (by decide)).mpr (by decide),
   (C4_subject_rules "Change it.".data [] _ rfl).2.2.mpr (by decide)⟩

/-! ## Digit-run injectivity for the line-number citations -/

theorem digit_run_append_inj : ∀ (x y r s : JStr),
    (∀ c ∈ x, 48 ≤ c.toNat ∧ c.toNat ≤ 57) →
    (∀ c ∈ y, 48 ≤ c.toNat ∧ c.toNat ≤ 57) →
    x ++ (' ' :: r) = y ++ (' ' :: s) → x = y := by
  intro x
  induction x with
  | nil =>
    intro y r s _ hy h
    cases y with
    | nil => rfl
    | cons b y' =>
      simp only [List.nil_append, List.cons_append, List.cons.injEq] at h
      have hb := hy b (List.mem_cons_self _ _)
      rw [← h.1] at hb
      exact absurd hb (by decide)
  | cons a x' ih =>
    intro y r s hx hy h
    cases y with
    | nil =>
      simp only [List.cons_append, List.nil_append, List.cons.injEq] at h
      have ha := hx a (List.mem_cons_self _ _)
      rw [h.1] at ha
      exact absurd ha (by decide)
    | cons b y' =>
      simp only [List.cons_append, List.cons.injEq] at h
      rw [h.1, ih y' r s (fun c hc => hx c (List.mem_cons_of_mem _ hc))
        (fun c hc => hy c (List.mem_cons_of_mem _ hc)) h.2]

theorem lineLengthError_inj_index {i j : Nat} {l1 l2 : JStr}
    (h : lineLengthError i l1 = lineLengthError j l2) : i = j := by
  rw [lineLengthError, lineLengthError] at h
  have h1 := List.append_cancel_left h
  have h3 : natChars (i + 3) = natChars (j + 3) :=
    digit_run_append_inj _ _ _ _ (natChars_digits _) (natChars_digits _) h1
  have := natChars_inj h3
  omega

/-! ## Space/letter facts -/

theorem alpha_not_space (d : Char) (h : isAlpha d = true) : isJsSpace d = false := by
  cases hsp : isJsSpace d with
  | false => rfl
  | true =>
    exfalso
    have hd := h
    simp [isAlpha, isUpperAlpha, isLowerAlpha] at hd
    have hs := hsp
    simp [isJsSpace] at hs
    omega

theorem space_not_upper (c : Char) (h : isJsSpace c = true) :
    isUpperAlpha c = false := by
  cases hu : isUpperAlpha c with
  | false => rfl
  | true =>
    exfalso
    have hd := hu
    simp [isUpperAlpha] at hd
    have hs := h
    simp [isJsSpace] at hs
    omega

theorem capMatch_none_of_trim_nil (l : JStr) (h : trimJs l = []) :
    capitalizedWordMatch l = none := by
  have hall : ∀ c ∈ l, isJsSpace c = true := by
    rw [trimJs] at h
    have h1 : (l.dropWhile (fun c => isJsSpace c)).reverse.dropWhile
        (fun c => isJsSpace c) = [] := by
      rwa [List.reverse_eq_nil_iff] at h
    have h2 := List.dropWhile_eq_nil_iff.mp h1
    have h3 : ∀ c ∈ l.dropWhile (fun c => isJsSpace c), isJsSpace c = true :=
      fun c hc => h2 c (List.mem_reverse.mpr hc)
    intro c hc
    have hsplit := List.takeWhile_append_dropWhile
      (p := fun c => isJsSpace c) (l := l)
    rw [← hsplit] at hc
    rcases List.mem_append.mp hc with h4 | h4
    · exact List.mem_takeWhile_imp h4
    · exact h3 c h4
  cases l with
  | nil => rfl
  | cons c rest =>
    simp [capitalizedWordMatch,
      space_not_upper c (hall c (List.mem_cons_self _ _))]

/-! ## Claims C5, C7, C8, C10 -/

/-- C5: once the body passed the emptiness gates, a body line triggers
the per-line length error exactly when it is neither a bare URL line nor
a link-definition line and exceeds 72 characters; the error (see
`lineLengthError`) cites the absolute message line `i + 3`, the body
line `i + 1`, the character count, and the JSON-quoted line.  Exempt
lines of any length never trigger it. -/
theorem C5_body_line_length (subject line : JStr) (bodyLines : List JStr)
    (i : Nat)
    (h0 : ¬(bodyLines.length = 0))
    (h1 : ¬(bodyLines.length = 1 ∧ trimJs (bodyLines.headD []) = []))
    (hi : nthItem bodyLines i = some line) :
    lineLengthError i line ∈ checkBody subject bodyLines ↔
      ((urlLineTest line || linkDefTest line) = false ∧ 72 < line.length) := by
  rw [mem_checkBody]
  constructor
  · rintro (⟨hz, _⟩ | ⟨_, hc, _⟩ | ⟨_, _, hmem | hmem⟩)
    · exact absurd hz h0
    · exact absurd hc h1
    · obtain ⟨j, l', hj, hex, hlen, he⟩ := (mem_lineErrorsFrom _ _ 0).mp hmem
      have hij : i = 0 + j := lineLengthError_inj_index he
      have hji : j = i := by omega
      rw [hji, hi] at hj
      cases Option.some.inj hj
      exact ⟨hex, hlen⟩
    · obtain ⟨sw, bw, _, _, _, he⟩ := (mem_dupErrors _ _ _).mp hmem
      exact absurd he.symm (dupWord_ne_lineLength sw i line)
  · rintro ⟨hex, hlen⟩
    refine Or.inr (Or.inr ⟨h0, h1, Or.inl ?_⟩)
    exact (mem_lineErrorsFrom _ _ 0).mpr
      ⟨i, line, hi, hex, hlen, by rw [Nat.zero_add]⟩

/-- C5 witness: a 73-character line fires (citing message line 3, body
line 1, count 73), a 72-character line does not, and an over-long bare
URL line does not. -/
theorem C5_witness :
    lineLengthError 0 (List.replicate 73 'x')
      ∈ checkBody "Do a".data [List.replicate 73 'x']
    ∧ lineLengthError 0 (List.replicate 72 'x')
      ∉ checkBody "Do a".data [List.replicate 72 'x']
    ∧ lineLengthError 0 ("http://".data ++ List.replicate 80 'x')
      ∉ checkBody "Do a".data ["http://".data ++ List.replicate 80 'x'] := by
  refine ⟨?_, ?_, ?_⟩
  · exact (C5_body_line_length "Do a".data (List.replicate 73 'x')
      [List.replicate 73 'x'] 0 (by decide) (by decide) (by decide)).mpr
      (by decide)
  · intro h
    have hc := (C5_body_line_length "Do a".data (List.replicate 72 'x')
      [List.replicate 72 'x'] 0 (by decide) (by decide) (by decide)).mp h
    exact absurd hc.2 (by decide)
  · intro h
    have hc := (C5_body_line_length "Do a".data
      ("http://".data ++ List.replicate 80 'x')
      ["http://".data ++ List.replicate 80 'x'] 0
      (by decide) (by decide) (by decide)).mp h
    exact absurd hc.1 (by decide)

/-- C7: the duplicate-first-word error fires exactly once when both the
subject and the first body line have a leading capitalized-word token
and the two tokens agree after lower-casing; if either side has no such
token the rule contributes no error at all. -/
theorem C7_duplicate_first_word (subject b0 : JStr) (rest : List JStr) :
    (∀ sw bw, capitalizedWordMatch subject = some sw →
      capitalizedWordMatch b0 = some bw → lowerStr sw = lowerStr bw →
      (checkBody subject (b0 :: rest)).count (dupWordError sw) = 1)
    ∧ ((capitalizedWordMatch b0 = none ∨ capitalizedWordMatch subject = none) →
      ∀ w, dupWordError w ∉ checkBody subject (b0 :: rest)) := by
  constructor
  · intro sw bw hs hb heq
    have h0 : ¬((b0 :: rest).length = 0) := by simp
    have hgate : ¬((b0 :: rest).length = 1
        ∧ trimJs ((b0 :: rest).headD []) = []) := by
      rintro ⟨_, htrim⟩
      have := capMatch_none_of_trim_nil b0 htrim
      rw [this] at hb
      exact Option.noConfusion hb
    rw [checkBody, if_neg h0, if_neg hgate, List.count_append]
    have hdup : dupErrors subject ((b0 :: rest).headD []) = [dupWordError sw] := by
      simp [dupErrors, hb, hs, heq, -List.headD_eq_head?_getD]
    have hcount0 : (lineErrorsFrom 0 (b0 :: rest)).count (dupWordError sw) = 0 := by
      rw [List.count_eq_zero]
      intro hmem
      obtain ⟨j, l', _, _, _, he⟩ := (mem_lineErrorsFrom _ _ 0).mp hmem
      exact absurd he (dupWord_ne_lineLength sw (0 + j) l')
    rw [hdup, hcount0]
    simp
  · intro hnone w hmem
    rcases (mem_checkBody _ _ _).mp hmem with
      ⟨hz, _⟩ | ⟨_, _, he⟩ | ⟨_, _, hmem' | hmem'⟩
    · exact absurd hz (by simp)
    · exact absurd he (dupWord_ne_emptyBody2 w)
    · obtain ⟨j, l', _, _, _, he⟩ := (mem_lineErrorsFrom _ _ 0).mp hmem'
      exact absurd he (dupWord_ne_lineLength w (0 + j) l')
    · obtain ⟨sw, bw, hs, hb, _, _⟩ := (mem_dupErrors _ _ _).mp hmem'
      have hb' : capitalizedWordMatch b0 = some bw := hb
      rcases hnone with hn | hn
      · rw [hn] at hb'
        exact Option.noConfusion hb'
      · rw [hn] at hs
        exact Option.noConfusion hs

/-- C7 witness: subject and body both led by "Change" fire the error
exactly once; a body line with no leading capitalized word contributes
no duplicate-word error. -/
theorem C7_witness :
    (checkBody "Change A".data ["Change B".data]).count
      (dupWordError "Change".data) = 1
    ∧ dupWordError "Change".data ∉ checkBody "Change A".data ["* body".data] :=
  ⟨(C7_duplicate_first_word "Change A".data "Change B".data []).1
      "Change".data "Change".data (by decide) (by decide) (by decide),
   (C7_duplicate_first_word "Change A".data "* body".data []).2
      (Or.inl (by decide)) "Change".data⟩

theorem verbsPrecondition_some : ∀ (verbs : List JStr) (v : JStr), v ∈ verbs →
    (v.length = 0 ∨ v ≠ lowerStr v) → ∃ d, verbsPrecondition verbs = some d := by
  intro verbs
  induction verbs with
  | nil => intro v hv _; exact absurd hv (List.not_mem_nil v)
  | cons a rest ih =>
    intro v hv hcond
    rw [verbsPrecondition]
    by_cases ha0 : a.length = 0
    · exact ⟨_, by rw [if_pos ha0]⟩
    · by_cases hal : a ≠ lowerStr a
      · exact ⟨_, by rw [if_neg ha0, if_pos hal]⟩
      · rw [if_neg ha0, if_neg hal]
        rcases List.mem_cons.mp hv with rfl | hv'
        · rcases hcond with h | h
          · exact absurd h ha0
          · exact absurd h hal
        · exact ih v hv' hcond

/-- C8: an additional-verbs set with an empty or non-lower-case entry
makes `checkSubject` abort with a thrown defect (never a message
violation, no partial error list); and every error string that `check`
returns satisfies the post-condition of not ending in a newline
character. -/
theorem C8_defects :
    (∀ (verbs : List JStr) (subject : JStr),
      (∃ v ∈ verbs, v.length = 0 ∨ v ≠ lowerStr v) →
      ∃ d, checkSubject subject verbs = Except.error d)
    ∧ (∀ (m : JStr) (verbs : List JStr) (flag : Bool) (errs : List JStr),
        check m verbs flag = Except.ok errs →
        ∀ e ∈ errs, jsEndsWithNewline e = false) := by
  constructor
  · intro verbs subject hbad
    obtain ⟨v, hv, hc⟩ := hbad
    obtain ⟨d, hd⟩ := verbsPrecondition_some verbs v hv hc
    exact ⟨d, by rw [checkSubject, hd]⟩
  · intro m verbs flag errs h e he
    rcases check_ok_cases m verbs flag errs h with
      ⟨_, rfl⟩ | ⟨_, _, _, _, rfl⟩ | ⟨_, _, _, rfl⟩ | ⟨_, _, _, _, rfl⟩
    · exact absurd he (List.not_mem_nil e)
    · exact noNl_subjectErrors _ _ e he
    · exact noNl_splitErrors _ e he
    · rcases List.mem_append.mp he with h1 | h1
      · exact noNl_subjectErrors _ _ e h1
      · exact noNl_checkBody _ _ e h1

/-- C8 witness: the whitelist entry `Bad` (not lower-case) makes
`checkSubject` abort; the merge-exempt report `[]` trivially satisfies
the newline post-condition. -/
theorem C8_witness :
    (∃ d, checkSubject "Fix it".data ["Bad".data] = Except.error d)
    ∧ ∀ e ∈ ([] : List JStr), jsEndsWithNewline e = false :=
  ⟨C8_defects.1 ["Bad".data] "Fix it".data
      ⟨"Bad".data, by decide, Or.inr (by decide)⟩,
   C8_defects.2 (mergeHead ++ ("a".data ++ (mergeSepList ++ "b".data))) []
      false [] (by decide)⟩

theorem nthChar_mem : ∀ (l : JStr) (n : Nat) (x : Char),
    nthChar l n = some x → x ∈ l := by
  intro l
  induction l with
  | nil => intro n x h; simp [nthChar] at h
  | cons c rest ih =>
    intro n x h
    cases n with
    | zero =>
      simp only [nthChar, Option.some.injEq] at h
      rw [← h]
      exact List.mem_cons_self _ _
    | succ n => exact List.mem_cons_of_mem _ (ih n x h)

theorem stripHashSuffix_of_alpha : ∀ l : JStr, (∀ d ∈ l, isAlpha d = true) →
    stripHashSuffix l = l := by
  intro l
  induction l with
  | nil => intro _; rfl
  | cons a t ih =>
    intro h
    have ha := h a (List.mem_cons_self _ _)
    have hns : hashSuffixAt (a :: t) = false := by
      simp only [hashSuffixAt]
      rw [if_neg (by simp [alpha_not_space a ha])]
      simp only [parenHash]
      rw [if_neg (fun heq => by rw [heq] at ha; exact absurd ha (by decide))]
    rw [stripHashSuffix, if_neg (by simp [hns]),
      ih (fun d hd => h d (List.mem_cons_of_mem _ hd))]

theorem capMatch_none_of_word (c : Char) (rest : JStr)
    (hu : isUpperAlpha c = true) (hl : ∀ d ∈ rest, isLowerAlpha d = true) :
    capitalizedWordMatch (c :: rest) = none := by
  simp [capitalizedWordMatch, hu, List.span_eq_take_drop,
    List.takeWhile_eq_self_iff.mpr hl, List.dropWhile_eq_nil_iff.mpr hl]

theorem mergeTest_false_of_alpha (l : JStr) (h : ∀ d ∈ l, isAlpha d = true) :
    mergeMessageTest l = false := by
  rw [mergeMessageTest, if_neg ?hn]
  case hn =>
    intro hp
    have heq := eq_append_of_isPrefixOf hp
    have h5 : nthChar l 5 = some ' ' := by
      rw [heq, nthChar_append_left _ _ 5 (by decide)]
      decide
    have hmem := nthChar_mem l 5 ' ' h5
    exact absurd (h ' ' hmem) (by decide)

/-- C10: a subject consisting solely of a capitalized word (one upper
case letter followed by lower-case letters, nothing after it) never
matches the capitalized-word pattern — the pattern demands a non-letter
character right after the word — so `check` emits the
"must start with a capitalized verb" error even when the word's
lower-casing is whitelisted. -/
theorem C10_bare_capitalized_word (c : Char) (rest : JStr) (verbs : List JStr)
    (hu : isUpperAlpha c = true)
    (hl : ∀ d ∈ rest, isLowerAlpha d = true)
    (hcs : verbsPrecondition verbs = none) :
    capitalizedWordMatch (stripHashSuffix (c :: rest)) = none
    ∧ ∀ errs : List JStr, check (c :: rest) verbs true = Except.ok errs →
        capVerbError ∈ errs := by
  have halpha : ∀ d ∈ (c :: rest), isAlpha d = true := by
    intro d hd
    rcases List.mem_cons.mp hd with rfl | hd'
    · simp [isAlpha, hu]
    · simp [isAlpha, hl d hd']
  have hstrip : stripHashSuffix (c :: rest) = c :: rest :=
    stripHashSuffix_of_alpha _ halpha
  have hcap : capitalizedWordMatch (stripHashSuffix (c :: rest)) = none := by
    rw [hstrip]
    exact capMatch_none_of_word c rest hu hl
  refine ⟨hcap, ?_⟩
  intro errs h
  have hnl : '\n' ∉ (c :: rest) := fun hm => absurd (halpha '\n' hm) (by decide)
  have hcr : stripCr (c :: rest) = c :: rest := by
    rw [stripCr,
      if_neg (fun hlast => absurd (halpha '\r' (lastChar_mem _ _ hlast)) (by decide))]
  have hsplit : splitLines (c :: rest) = [c :: rest] := by
    rw [splitLines_no_nl _ hnl, hcr]
  have hck := check_oneliner (c :: rest) verbs
    (mergeTest_false_of_alpha _ halpha) (by rw [hsplit]; rfl) hcs
  rw [hck] at h
  have herr := (Except.ok.inj h).symm
  rw [herr, hsplit]
  exact (mem_subjectErrors _ _ _).mpr (Or.inr (Or.inl ⟨hcap, rfl⟩))

/-- C10 witness: the one-line subject `Fix` yields the capitalized-verb
error even though `fix` is in the additional-verbs whitelist. -/
theorem C10_witness :
    capitalizedWordMatch (stripHashSuffix "Fix".data) = none
    ∧ capVerbError ∈ subjectErrors "Fix".data ["fix".data] := by
  have h := C10_bare_capitalized_word 'F' "ix".data ["fix".data]
    (by decide) (by decide) (by decide)
  exact ⟨h.1, h.2 (subjectErrors "Fix".data ["fix".data]) (by decide)⟩

/-! ## Ground checks mirroring the Jest tests of
`src/src/__tests__/inspection.test.ts` -/

example : check "Change SomeClass to OtherClass".data [] true = .ok [] := by decide
example : check "Change SomeClass to OtherClass".data [] false
    = .ok [tooFewError 1] := by decide
example : check ("Change SomeClass to OtherClass\n\n"
    ++ "This replaces the SomeClass with OtherClass in all of the module \n"
    ++ "since Some class was deprecated.").data [] false = .ok [] := by decide
example : check "Change SomeClass to OtherClass\n\n".data [] false
    = .ok [emptyBodyError2] := by decide
example : check "Change SomeClass to OtherClass\n".data [] true
    = .ok [tooFewMultiError 2] := by decide
example : check "Table that for me\n\nThis is a dummy commit.".data
    ["table".data] false = .ok [] := by decide
example : check "Change SomeClass to OtherClass\n\n* Do something".data [] false
    = .ok [] := by decide
example : stripHashSuffix "Unify all license files to LICENSE.txt naming (#43)".data
    = "Unify all license files to LICENSE.txt naming".data := by decide
example : capitalizedWordMatch "Fix".data = none := by decide
example : capitalizedWordMatch "Change SomeClass".data = some "Change".data := by decide
example : mergeMessageTest ("Merge branch ".data ++ [squote] ++ "V20DataModel".data
    ++ [squote] ++ " into miho/Conform-to-spec".data) = true := by decide
example : urlLineTest "http://a.com/b".data = true := by decide
example : linkDefTest "[1]: http://a.com/b".data = true := by decide

end Inspection
